import Mathlib

/-
Verification of the nearest-color library (nearestColor.js, version 0.4.4).

The embedding below translates the source functions of the library into Lean:
data model (RGB, ColorSpec, MatchResult), the color parser (parseColor with
its standard-name table, hex grammar and rgb() grammar), palette
normalization (createColorSpec / mapColors), the linear nearest-neighbor
scan inside nearestColor, and the matcher factory (from / or).

Modelling conventions:
- JavaScript strings are modelled as List Char.
- JavaScript numbers occurring here are integers (color channels, squared
  distances); they are modelled as Int (queries and palette entries may
  carry negative or large components, and squared distances never overflow
  a double in this domain).
- Thrown errors are modelled with Except; the error type distinguishes the
  invalid-color-format error (thrown by parseColor with the offending
  source string) from the empty-palette failure (in the source, reading
  property name of the undefined value after a scan over zero entries).
- The match result of the source stores Math.sqrt(minDistanceSq); the
  embedding stores the radicand minDistanceSq (an exact integer), and
  theorems about the reported distance speak of Real.sqrt of that field.
- The standard-name check of the source uses the in operator on a plain
  object literal, which also reaches the inherited properties of
  Object.prototype; parseColorStrFull models that full behavior
  (including the resulting non-color outcomes on the twelve inherited
  names), while parseColorStr models the behavior on all other strings,
  and the two agree there (parseColorStrFull_agrees).
- The whitespace class of the rgb() regular expression is the full
  JavaScript backslash-s set, Unicode whitespace included.
-/

/-- RGB breakdown of a color, components modelled as integers. -/
structure RGB where
  r : Int
  g : Int
  b : Int
deriving DecidableEq, Repr

/-- A palette entry: optional name, the source string, and its RGB values. -/
structure ColorSpec where
  name : Option (List Char)
  source : List Char
  rgb : RGB
deriving DecidableEq, Repr

/-- Errors of the library: the invalid-color error thrown by parseColor
(carrying the offending source string), and the failure on an empty
palette. -/
inductive ColorError where
  | invalidColorFormat (source : List Char)
  | emptyPalette
deriving DecidableEq, Repr

/-- The needle argument of nearestColor: either an RGB object (passed
through by parseColor) or a string. -/
inductive ColorInput where
  | str (s : List Char)
  | rgbVal (c : RGB)
deriving DecidableEq, Repr

/-- An element of a palette before normalization: a raw string, a raw RGB
object, or an already-built ColorSpec-shaped object (one carrying a
nonempty source property), as discriminated by createColorSpec. -/
inductive RawColor where
  | str (s : List Char)
  | rgbVal (c : RGB)
  | spec (c : ColorSpec)
deriving DecidableEq, Repr

/-- The argument of mapColors: either an array of colors or an object
mapping names to colors (modelled as an association list in key iteration
order). -/
inductive ColorsInput where
  | arr (l : List RawColor)
  | obj (entries : List (List Char × RawColor))
deriving DecidableEq, Repr

/-- Result of nearestColor: a bare source string when the winning entry has
no name, or the structured record. The distanceSq field is the radicand of
the Math.sqrt call in the source. -/
inductive MatchResult where
  | bare (value : List Char)
  | named (name : List Char) (value : List Char) (rgb : RGB) (distanceSq : Int)
deriving DecidableEq, Repr

/-- Decimal digit test, the character class of a digit in the rgb()
regular expression. -/
def isDigitChar (c : Char) : Bool := 48 ≤ c.toNat && c.toNat ≤ 57

/-- Hex digit test, the case-insensitive character class of the hex
regular expression. -/
def isHexDigit (c : Char) : Bool :=
  (48 ≤ c.toNat && c.toNat ≤ 57) || (97 ≤ c.toNat && c.toNat ≤ 102) ||
    (65 ≤ c.toNat && c.toNat ≤ 70)

/-- Whitespace test for the backslash-s class of the rgb() regular
expression: the full JavaScript class, that is ASCII whitespace (space,
tab, line feed, vertical tab, form feed, carriage return) together with
the Unicode whitespace code points it matches (no-break space, ogham
space mark, the en-quad through hair-space range, line and paragraph
separators, narrow no-break space, medium mathematical space, ideographic
space, and the byte-order mark). -/
def isSpaceChar (c : Char) : Bool :=
  c.toNat = 32 || c.toNat = 9 || c.toNat = 10 || c.toNat = 13 ||
    c.toNat = 11 || c.toNat = 12 || c.toNat = 160 || c.toNat = 5760 ||
    (8192 ≤ c.toNat && c.toNat ≤ 8202) || c.toNat = 8232 || c.toNat = 8233 ||
    c.toNat = 8239 || c.toNat = 8287 || c.toNat = 12288 || c.toNat = 65279

/-- Numeric value of one hex digit (either case). -/
def hexVal (c : Char) : Nat :=
  if c.toNat ≤ 57 then c.toNat - 48
  else if c.toNat ≤ 70 then c.toNat - 55
  else c.toNat - 87

/-- Value of a two-hex-digit byte, as produced by parseInt(d1 d2, 16). -/
def hexByte (a b : Char) : Int := ((16 * hexVal a + hexVal b : Nat) : Int)

/-- Numeric value of a decimal digit string, as produced by parseInt or
Number on an all-digit string. -/
def digitsToNat (ds : List Char) : Nat :=
  ds.foldl (fun a c => 10 * a + (c.toNat - 48)) 0

/-- The optional leading hash of the hex grammar: a single leading hash
character is removed, anything else is left alone. -/
def stripHash (s : List Char) : List Char :=
  match s with
  | c :: rest => if c = '#' then rest else s
  | [] => []

/-- The hex branch of parseColor: the anchored match of an optional hash
followed by exactly three or six hex digits, and the conversion of the
digits to channels (a three-digit form doubles each digit, a six-digit
form reads three two-digit bytes). -/
def hexMatch (s : List Char) : Option RGB :=
  let t := stripHash s
  if t.all isHexDigit then
    match t with
    | [a, b, c] => some ⟨hexByte a a, hexByte b b, hexByte c c⟩
    | [a, b, c, d, e, f] => some ⟨hexByte a b, hexByte c d, hexByte e f⟩
    | _ => none
  else none

/-- One component of the rgb() grammar: one to three decimal digits
followed by an optional percent sign. Returns the matched substring and
the remainder of the input. -/
def compMatch (s : List Char) : Option (List Char × List Char) :=
  let ds := s.takeWhile isDigitChar
  if 1 ≤ ds.length ∧ ds.length ≤ 3 then
    match s.drop ds.length with
    | '%' :: r => some (ds ++ ['%'], r)
    | rest => some (ds, rest)
  else none

/-- The argument part of the rgb() grammar: optional whitespace before each
component, a comma directly after the first and second component, optional
whitespace before the closing parenthesis, which must end the input. -/
def rgbArgs (s : List Char) : Option (List Char × List Char × List Char) :=
  match compMatch (s.dropWhile isSpaceChar) with
  | none => none
  | some (c1, r1) =>
    match r1 with
    | ',' :: r1b =>
      match compMatch (r1b.dropWhile isSpaceChar) with
      | none => none
      | some (c2, r2) =>
        match r2 with
        | ',' :: r2b =>
          match compMatch (r2b.dropWhile isSpaceChar) with
          | none => none
          | some (c3, r3) =>
            if r3.dropWhile isSpaceChar = [')'] then some (c1, c2, c3)
            else none
        | _ => none
    | _ => none

/-- The anchored match of the rgb() regular expression: the
case-insensitive letters r, g, b, an opening parenthesis, then the three
components. Returns the three matched component substrings. -/
def rgbMatchStrings (s : List Char) : Option (List Char × List Char × List Char) :=
  match s with
  | a :: b :: c :: d :: rest =>
    if (a == 'r' || a == 'R') && (b == 'g' || b == 'G') &&
        (c == 'b' || c == 'B') && d == '(' then
      rgbArgs rest
    else none
  | _ => none

/-- Translation of parseComponentValue: a trailing percent sign yields
Math.round(parseInt(string) * 255 / 100), written exactly as the rounded
division (255 * v + 50) / 100 on naturals; otherwise Number(string), the
literal decimal value. No clamping to 255 occurs in either branch. -/
def parseComponentValue (s : List Char) : Int :=
  if s.getLast? = some '%' then
    (((255 * digitsToNat (s.takeWhile isDigitChar) + 50) / 100 : Nat) : Int)
  else
    ((digitsToNat s : Nat) : Int)

/-- The own properties of the STANDARD_COLORS table object: the 17
standard CSS color names and their hex values, looked up by
case-sensitive exact match. The in operator used by the source also
reaches the inherited properties of Object.prototype; those are modelled
separately by objectProtoProps and parseColorStrFull. -/
def standardLookup (s : List Char) : Option (List Char) :=
  if s = ['a', 'q', 'u', 'a'] then some ['#', '0', 'f', 'f']
  else if s = ['b', 'l', 'a', 'c', 'k'] then some ['#', '0', '0', '0']
  else if s = ['b', 'l', 'u', 'e'] then some ['#', '0', '0', 'f']
  else if s = ['f', 'u', 'c', 'h', 's', 'i', 'a'] then some ['#', 'f', '0', 'f']
  else if s = ['g', 'r', 'a', 'y'] then some ['#', '8', '0', '8', '0', '8', '0']
  else if s = ['g', 'r', 'e', 'e', 'n'] then some ['#', '0', '0', '8', '0', '0', '0']
  else if s = ['l', 'i', 'm', 'e'] then some ['#', '0', 'f', '0']
  else if s = ['m', 'a', 'r', 'o', 'o', 'n'] then some ['#', '8', '0', '0', '0', '0', '0']
  else if s = ['n', 'a', 'v', 'y'] then some ['#', '0', '0', '0', '0', '8', '0']
  else if s = ['o', 'l', 'i', 'v', 'e'] then some ['#', '8', '0', '8', '0', '0', '0']
  else if s = ['o', 'r', 'a', 'n', 'g', 'e'] then some ['#', 'f', 'f', 'a', '5', '0', '0']
  else if s = ['p', 'u', 'r', 'p', 'l', 'e'] then some ['#', '8', '0', '0', '0', '8', '0']
  else if s = ['r', 'e', 'd'] then some ['#', 'f', '0', '0']
  else if s = ['s', 'i', 'l', 'v', 'e', 'r'] then some ['#', 'c', '0', 'c', '0', 'c', '0']
  else if s = ['t', 'e', 'a', 'l'] then some ['#', '0', '0', '8', '0', '8', '0']
  else if s = ['w', 'h', 'i', 't', 'e'] then some ['#', 'f', 'f', 'f']
  else if s = ['y', 'e', 'l', 'l', 'o', 'w'] then some ['#', 'f', 'f', '0']
  else none

/-- The hex and rgb() branches of parseColor on a string, with the final
throw of the invalid-color error. -/
def parseColorCore (s : List Char) : Except ColorError RGB :=
  match hexMatch s with
  | some c => .ok c
  | none =>
    match rgbMatchStrings s with
    | some (c1, c2, c3) =>
      .ok ⟨parseComponentValue c1, parseComponentValue c2, parseComponentValue c3⟩
    | none => .error (.invalidColorFormat s)

/-- Translation of parseColor on a string that is not an inherited
property name of Object.prototype: the standard-name table is consulted
first and its hex value parsed recursively; since every table value is a
hash-led hex string and no table value is itself a key or an inherited
name, the recursive call is inlined as parseColorCore (the lemma
standard_values_not_keys below checks the side condition). On the twelve
inherited names the source behaves differently (see parseColorStrFull and
parseColorStrFull_agrees); no theorem below applies parseColorStr to
them. -/
def parseColorStr (s : List Char) : Except ColorError RGB :=
  match standardLookup s with
  | some v => parseColorCore v
  | none => parseColorCore s

/-- Translation of parseColor: an object needle is returned unchanged, a
string needle is parsed. -/
def parseColor (input : ColorInput) : Except ColorError RGB :=
  match input with
  | .rgbVal c => .ok c
  | .str s => parseColorStr s

/-- The inherited property names of Object.prototype in a standard
JavaScript host, which the in check of the source also reaches because
the STANDARD_COLORS table is a plain object literal. -/
def objectProtoProps : List (List Char) :=
  [['_', '_', 'p', 'r', 'o', 't', 'o', '_', '_'],
   ['c', 'o', 'n', 's', 't', 'r', 'u', 'c', 't', 'o', 'r'],
   ['h', 'a', 's', 'O', 'w', 'n', 'P', 'r', 'o', 'p', 'e', 'r', 't', 'y'],
   ['i', 's', 'P', 'r', 'o', 't', 'o', 't', 'y', 'p', 'e', 'O', 'f'],
   ['p', 'r', 'o', 'p', 'e', 'r', 't', 'y', 'I', 's', 'E', 'n', 'u', 'm', 'e', 'r', 'a', 'b', 'l', 'e'],
   ['t', 'o', 'L', 'o', 'c', 'a', 'l', 'e', 'S', 't', 'r', 'i', 'n', 'g'],
   ['t', 'o', 'S', 't', 'r', 'i', 'n', 'g'],
   ['v', 'a', 'l', 'u', 'e', 'O', 'f'],
   ['_', '_', 'd', 'e', 'f', 'i', 'n', 'e', 'G', 'e', 't', 't', 'e', 'r', '_', '_'],
   ['_', '_', 'd', 'e', 'f', 'i', 'n', 'e', 'S', 'e', 't', 't', 'e', 'r', '_', '_'],
   ['_', '_', 'l', 'o', 'o', 'k', 'u', 'p', 'G', 'e', 't', 't', 'e', 'r', '_', '_'],
   ['_', '_', 'l', 'o', 'o', 'k', 'u', 'p', 'S', 'e', 't', 't', 'e', 'r', '_', '_']]

/-- Possible outcomes of parseColor on a string in the source, including
the behavior on the inherited Object.prototype names that the in operator
reaches: a parsed RGB value, the invalid-color error with the offending
string, the pass-through of the inherited Object.prototype object itself
(looking up the proto accessor yields an object, which parseColor returns
unchanged with no error), or the TypeError raised when the recursive call
receives an inherited function value (its in coercion misses the table
and calling match on a function fails). -/
inductive ParseOutcome where
  | ok (c : RGB)
  | invalidColor (source : List Char)
  | protoObject
  | typeError
deriving DecidableEq, Repr

/-- Full translation of parseColor on a string, prototype chain included:
an own key of the table recurses on its hex value; an inherited
Object.prototype name yields the proto object pass-through (for the proto
accessor) or a TypeError (for the inherited functions); any other string
goes through the hex and rgb() grammars as in parseColorCore. -/
def parseColorStrFull (s : List Char) : ParseOutcome :=
  match standardLookup s with
  | some v =>
    match parseColorCore v with
    | .ok c => .ok c
    | .error _ => .invalidColor v
  | none =>
    if s ∈ objectProtoProps then
      if s = ['_', '_', 'p', 'r', 'o', 't', 'o', '_', '_'] then .protoObject
      else .typeError
    else
      match parseColorCore s with
      | .ok c => .ok c
      | .error _ => .invalidColor s

/-- Translation of Number.prototype.toString(16) for the nonnegative
integers occurring here: lowercase hex digits, no padding. -/
def natToHex (n : Nat) : List Char := Nat.toDigits 16 n

/-- Translation of leadingZero: a single-character string gets a leading
zero, anything else is returned unchanged. -/
def leadingZero (value : List Char) : List Char :=
  if value.length = 1 then '0' :: value else value

/-- Translation of rgbToHex: a hash followed by the three channels, each
rendered in lowercase hex and independently padded to two digits. -/
def rgbToHex (c : RGB) : List Char :=
  '#' :: (leadingZero (natToHex c.r.toNat) ++ leadingZero (natToHex c.g.toNat) ++
    leadingZero (natToHex c.b.toNat))

/-- Truthiness of the optional name argument in createColorSpec: an absent
name or an empty string is falsy and sets no name. -/
def nameIfTruthy (name : Option (List Char)) : Option (List Char) :=
  match name with
  | some n => if n.isEmpty then none else some n
  | none => none

/-- Translation of createColorSpec. A string input is parsed and kept
verbatim as the source. A ColorSpec-shaped input (one with a source
property) triggers the recursive call createColorSpec(input.source,
input.name), inlined here since input.source is a string. An RGB input is
stored as the rgb value with the source rendered by rgbToHex. -/
def createColorSpec (input : RawColor) (name : Option (List Char)) :
    Except ColorError ColorSpec :=
  match input with
  | .str s =>
    match parseColorStr s with
    | .ok rgb => .ok ⟨nameIfTruthy name, s, rgb⟩
    | .error e => .error e
  | .spec c =>
    match parseColorStr c.source with
    | .ok rgb => .ok ⟨nameIfTruthy c.name, c.source, rgb⟩
    | .error e => .error e
  | .rgbVal c => .ok ⟨nameIfTruthy name, rgbToHex c, c⟩

/-- The array branch of mapColors: each element is normalized in order with
no name; the first parse failure propagates as the thrown error. -/
def normalizeList : List RawColor → Except ColorError (List ColorSpec)
  | [] => .ok []
  | c :: rest =>
    match createColorSpec c none with
    | .error e => .error e
    | .ok sc =>
      match normalizeList rest with
      | .error e => .error e
      | .ok scs => .ok (sc :: scs)

/-- The object branch of mapColors: each key-value pair is normalized in
key iteration order, the key passed as the name. -/
def normalizeObj : List (List Char × RawColor) → Except ColorError (List ColorSpec)
  | [] => .ok []
  | (n, c) :: rest =>
    match createColorSpec c (some n) with
    | .error e => .error e
    | .ok sc =>
      match normalizeObj rest with
      | .error e => .error e
      | .ok scs => .ok (sc :: scs)

/-- Translation of mapColors: arrays map elementwise without names, objects
map their entries with the key as name. -/
def mapColors (colors : ColorsInput) : Except ColorError (List ColorSpec) :=
  match colors with
  | .arr l => normalizeList l
  | .obj l => normalizeObj l

/-- Squared Euclidean RGB distance between the needle and an entry, the
quantity computed inside the scan loop of nearestColor. -/
def distSq (needle entry : RGB) : Int :=
  (needle.r - entry.r) ^ 2 + (needle.g - entry.g) ^ 2 + (needle.b - entry.b) ^ 2

/-- One iteration of the scan loop of nearestColor: the accumulator holds
the minimum squared distance and winning entry so far (none plays the role
of the initial Infinity, against which every finite distance compares
less). The comparison is strict, so an earlier entry keeps ties. -/
def scanStep (q : RGB) (acc : Option (Int × ColorSpec)) (c : ColorSpec) :
    Option (Int × ColorSpec) :=
  let d := distSq q c.rgb
  match acc with
  | none => some (d, c)
  | some (m, v) => if d < m then some (d, c) else some (m, v)

/-- The scan loop of nearestColor over the whole palette. A none result
means the palette was empty and no minimum was established. -/
def nearestScan (q : RGB) (colors : List ColorSpec) : Option (Int × ColorSpec) :=
  colors.foldl (scanStep q) none

/-- The return expression of nearestColor: a truthy name on the winning
entry yields the structured record (whose distance field in the source is
Math.sqrt of the integer stored here), otherwise the bare source string. -/
def formatMatch (v : ColorSpec) (m : Int) : MatchResult :=
  match v.name with
  | some n => if n.isEmpty then .bare v.source else .named n v.source v.rgb m
  | none => .bare v.source

/-- Translation of nearestColor: parse the needle (propagating the
invalid-color error), scan the palette, fail on an empty palette, and
build the result from the winning entry. -/
def nearestColor (needle : ColorInput) (colors : List ColorSpec) :
    Except ColorError MatchResult :=
  match parseColor needle with
  | .error e => .error e
  | .ok q =>
    match nearestScan q colors with
    | none => .error .emptyPalette
    | some (m, v) => .ok (formatMatch v m)

/-- A palette-bound matcher, the value returned by nearestColor.from: it
closes over the normalized palette. -/
structure BoundMatcher where
  colors : List ColorSpec
deriving DecidableEq, Repr

/-- Translation of nearestColor.from: normalize the available colors once
(propagating any parse failure thrown by mapColors) and close over them. -/
def fromColors (availableColors : ColorsInput) : Except ColorError BoundMatcher :=
  match mapColors availableColors with
  | .ok cs => .ok ⟨cs⟩
  | .error e => .error e

/-- Calling a bound matcher runs nearestColor against the captured
palette. -/
def BoundMatcher.call (m : BoundMatcher) (needle : ColorInput) :
    Except ColorError MatchResult :=
  nearestColor needle m.colors

/-- Translation of matcher.or: normalize the alternate colors, concatenate
them after the captured palette, and rebuild a matcher from the
concatenated array (whose elements are ColorSpec-shaped, so mapColors
re-normalizes them through the spec branch of createColorSpec). -/
def BoundMatcher.or (m : BoundMatcher) (alternateColors : ColorsInput) :
    Except ColorError BoundMatcher :=
  match mapColors alternateColors with
  | .error e => .error e
  | .ok alt => fromColors (.arr ((m.colors ++ alt).map RawColor.spec))

/-- Minimum of a list of distances folded from an initial value, the value
the running minimum of the scan holds after the list is consumed. -/
def minFrom (m : Int) (ds : List Int) : Int := ds.foldl min m

/-- Distances of the palette entries from the needle, in palette order. -/
def distList (q : RGB) (l : List ColorSpec) : List Int :=
  l.map (fun c => distSq q c.rgb)

/-- Characterization of the entry held by the scan after consuming l,
starting from running minimum m and running winner v: if some entry of l
beats m, the first entry of l achieving the folded minimum; otherwise v.
Used to state the loop invariant of nearestScan. -/
def winnerAt (q : RGB) (l : List ColorSpec) (m : Int) (v : ColorSpec) : ColorSpec :=
  if minFrom m (distList q l) < m then
    match l.find? (fun c => distSq q c.rgb == minFrom m (distList q l)) with
    | some c => c
    | none => v
  else v

/-- Boolean check that one channel value renders through natToHex and
leadingZero as exactly two hex digits whose byte value is the channel
again; used through a finite decision over all byte values. -/
def hexPairOk (n : Nat) : Bool :=
  match leadingZero (natToHex n) with
  | [a, b] => isHexDigit a && isHexDigit b && (16 * hexVal a + hexVal b == n)
  | _ => false

/-- Sanity check of the inlined recursion in parseColorStr: no value of the
standard-color table is itself a key of the table, so the recursive
parseColor call on a table value never consults the table again. -/
theorem standard_values_not_keys :
    standardLookup ['#', '0', 'f', 'f'] = none ∧
    standardLookup ['#', '0', '0', '0'] = none ∧
    standardLookup ['#', '0', '0', 'f'] = none ∧
    standardLookup ['#', 'f', '0', 'f'] = none ∧
    standardLookup ['#', '8', '0', '8', '0', '8', '0'] = none ∧
    standardLookup ['#', '0', '0', '8', '0', '0', '0'] = none ∧
    standardLookup ['#', '0', 'f', '0'] = none ∧
    standardLookup ['#', '8', '0', '0', '0', '0', '0'] = none ∧
    standardLookup ['#', '0', '0', '0', '0', '8', '0'] = none ∧
    standardLookup ['#', '8', '0', '8', '0', '0', '0'] = none ∧
    standardLookup ['#', 'f', 'f', 'a', '5', '0', '0'] = none ∧
    standardLookup ['#', '8', '0', '0', '0', '8', '0'] = none ∧
    standardLookup ['#', 'f', '0', '0'] = none ∧
    standardLookup ['#', 'c', '0', 'c', '0', 'c', '0'] = none ∧
    standardLookup ['#', '0', '0', '8', '0', '8', '0'] = none ∧
    standardLookup ['#', 'f', 'f', 'f'] = none ∧
    standardLookup ['#', 'f', 'f', '0'] = none := by
  decide

/-- The folded minimum never exceeds its initial value. -/
theorem minFrom_le_init (ds : List Int) : ∀ m : Int, minFrom m ds ≤ m := by
  induction ds with
  | nil => intro m; exact le_refl m
  | cons d t ih =>
    intro m
    calc minFrom m (d :: t) = minFrom (min m d) t := rfl
    _ ≤ min m d := ih (min m d)
    _ ≤ m := min_le_left m d

/-- The folded minimum never exceeds a member of the list. -/
theorem minFrom_le_mem (ds : List Int) :
    ∀ m x, x ∈ ds → minFrom m ds ≤ x := by
  induction ds with
  | nil => intro m x hx; cases hx
  | cons d t ih =>
    intro m x hx
    rcases List.mem_cons.mp hx with h | h
    · subst h
      calc minFrom m (x :: t) = minFrom (min m x) t := rfl
      _ ≤ min m x := minFrom_le_init t (min m x)
      _ ≤ x := min_le_right m x
    · exact ih (min m d) x h

/-- The folded minimum is the initial value or a member of the list. -/
theorem minFrom_eq_init_or_mem (ds : List Int) :
    ∀ m, minFrom m ds = m ∨ minFrom m ds ∈ ds := by
  induction ds with
  | nil => intro m; exact Or.inl rfl
  | cons d t ih =>
    intro m
    have hstep : minFrom m (d :: t) = minFrom (min m d) t := rfl
    rcases ih (min m d) with h | h
    · rcases le_total m d with hmd | hdm
      · left
        rw [hstep, h, min_eq_left hmd]
      · right
        rw [hstep, h, min_eq_right hdm]
        exact List.mem_cons_self d t
    · right
      rw [hstep]
      exact List.mem_cons_of_mem d h

/-- Loop invariant of the scan of nearestColor: folding the step function
from a live accumulator yields the folded minimum of the distances and the
winner characterized by winnerAt. -/
theorem scan_from_some (q : RGB) (l : List ColorSpec) :
    ∀ m v, l.foldl (scanStep q) (some (m, v)) =
      some (minFrom m (distList q l), winnerAt q l m v) := by
  induction l with
  | nil =>
    intro m v
    simp [minFrom, distList, winnerAt]
  | cons c t ih =>
    intro m v
    rw [List.foldl_cons]
    have hdl : distList q (c :: t) = distSq q c.rgb :: distList q t := rfl
    by_cases hd : distSq q c.rgb < m
    · have hstep : scanStep q (some (m, v)) c = some (distSq q c.rgb, c) := by
        simp [scanStep, hd]
      rw [hstep, ih]
      have hmin : minFrom m (distList q (c :: t)) =
          minFrom (distSq q c.rgb) (distList q t) := by
        rw [hdl, minFrom, List.foldl_cons, min_eq_right (le_of_lt hd)]
        rfl
      have hm'le : minFrom (distSq q c.rgb) (distList q t) ≤ distSq q c.rgb :=
        minFrom_le_init _ _
      have hm'm : minFrom (distSq q c.rgb) (distList q t) < m :=
        lt_of_le_of_lt hm'le hd
      by_cases h2 : distSq q c.rgb = minFrom (distSq q c.rgb) (distList q t)
      · have hfind : (c :: t).find?
            (fun x => distSq q x.rgb == minFrom m (distList q (c :: t))) = some c := by
          rw [hmin]
          exact List.find?_cons_of_pos _ (by simp [← h2])
        have hwl : winnerAt q (c :: t) m v = c := by
          rw [winnerAt, if_pos (by rw [hmin]; exact hm'm), hfind]
        have hwr : winnerAt q t (distSq q c.rgb) c = c := by
          rw [winnerAt, if_neg (by rw [← h2]; exact lt_irrefl _)]
        rw [hwl, hwr, hmin]
      · have hlt : minFrom (distSq q c.rgb) (distList q t) < distSq q c.rgb :=
          lt_of_le_of_ne hm'le (fun h => h2 h.symm)
        have hmem : minFrom (distSq q c.rgb) (distList q t) ∈ distList q t := by
          rcases minFrom_eq_init_or_mem (distList q t) (distSq q c.rgb) with h | h
          · exact absurd h.symm h2
          · exact h
        obtain ⟨x, hxmem, hxd⟩ := List.mem_map.mp hmem
        have hfind : (t.find?
            (fun c' => distSq q c'.rgb == minFrom (distSq q c.rgb) (distList q t))).isSome := by
          rw [List.find?_isSome]
          exact ⟨x, hxmem, by simp [hxd]⟩
        obtain ⟨w, hw⟩ := Option.isSome_iff_exists.mp hfind
        have hwl : winnerAt q (c :: t) m v = w := by
          rw [winnerAt, if_pos (by rw [hmin]; exact hm'm), hmin,
            List.find?_cons_of_neg _ (by simp [h2]), hw]
        have hwr : winnerAt q t (distSq q c.rgb) c = w := by
          rw [winnerAt, if_pos hlt, hw]
        rw [hwl, hwr, hmin]
    · have hstep : scanStep q (some (m, v)) c = some (m, v) := by
        simp [scanStep, hd]
      rw [hstep, ih]
      have hmle : m ≤ distSq q c.rgb := le_of_not_lt hd
      have hmin : minFrom m (distList q (c :: t)) = minFrom m (distList q t) := by
        rw [hdl, minFrom, List.foldl_cons, min_eq_left hmle]
        rfl
      by_cases hc : minFrom m (distList q t) < m
      · have hne : ¬ (distSq q c.rgb == minFrom m (distList q t)) = true := by
          simp only [beq_iff_eq]
          intro h
          exact absurd (lt_of_lt_of_le hc hmle) (by rw [← h]; exact lt_irrefl _)
        have hfc : List.find? (fun c' => distSq q c'.rgb == minFrom m (distList q t))
            (c :: t) =
            List.find? (fun c' => distSq q c'.rgb == minFrom m (distList q t)) t :=
          List.find?_cons_of_neg t hne
        have hwl : winnerAt q (c :: t) m v =
            match t.find? (fun c' => distSq q c'.rgb == minFrom m (distList q t)) with
            | some w => w
            | none => v := by
          rw [winnerAt, if_pos (by rw [hmin]; exact hc), hmin, hfc]
        have hwr : winnerAt q t m v =
            match t.find? (fun c' => distSq q c'.rgb == minFrom m (distList q t)) with
            | some w => w
            | none => v := by
          rw [winnerAt, if_pos hc]
        rw [hwl, hwr, hmin]
      · have hwl : winnerAt q (c :: t) m v = v := by
          rw [winnerAt, if_neg (by rw [hmin]; exact hc)]
        have hwr : winnerAt q t m v = v := by
          rw [winnerAt, if_neg hc]
        rw [hwl, hwr, hmin]

/-- The scan over a nonempty palette returns the minimum of all distances
together with the first entry achieving it, and never returns none. -/
theorem nearestScan_char (q : RGB) (c : ColorSpec) (rest : List ColorSpec) :
    ∃ m w, nearestScan q (c :: rest) = some (m, w) ∧
      (∀ x ∈ c :: rest, m ≤ distSq q x.rgb) ∧
      (c :: rest).find? (fun x => distSq q x.rgb == m) = some w := by
  have hstep : scanStep q none c = some (distSq q c.rgb, c) := rfl
  have hscan : nearestScan q (c :: rest) =
      some (minFrom (distSq q c.rgb) (distList q rest),
        winnerAt q rest (distSq q c.rgb) c) := by
    rw [nearestScan, List.foldl_cons, hstep, scan_from_some]
  refine ⟨minFrom (distSq q c.rgb) (distList q rest),
    winnerAt q rest (distSq q c.rgb) c, hscan, ?_, ?_⟩
  · intro x hx
    rcases List.mem_cons.mp hx with h | h
    · rw [h]
      exact minFrom_le_init _ _
    · exact minFrom_le_mem _ _ _ (List.mem_map.mpr ⟨x, h, rfl⟩)
  · by_cases h2 : distSq q c.rgb = minFrom (distSq q c.rgb) (distList q rest)
    · have hw : winnerAt q rest (distSq q c.rgb) c = c := by
        rw [winnerAt, if_neg (by rw [← h2]; exact lt_irrefl _)]
      rw [hw]
      exact List.find?_cons_of_pos _ (by simp [← h2])
    · have hle : minFrom (distSq q c.rgb) (distList q rest) ≤ distSq q c.rgb :=
        minFrom_le_init _ _
      have hlt : minFrom (distSq q c.rgb) (distList q rest) < distSq q c.rgb :=
        lt_of_le_of_ne hle (fun h => h2 h.symm)
      have hmem : minFrom (distSq q c.rgb) (distList q rest) ∈ distList q rest := by
        rcases minFrom_eq_init_or_mem (distList q rest) (distSq q c.rgb) with h | h
        · exact absurd h.symm h2
        · exact h
      obtain ⟨x, hxmem, hxd⟩ := List.mem_map.mp hmem
      have hfind : (rest.find?
          (fun c' => distSq q c'.rgb ==
            minFrom (distSq q c.rgb) (distList q rest))).isSome := by
        rw [List.find?_isSome]
        exact ⟨x, hxmem, by simp [hxd]⟩
      obtain ⟨w, hw⟩ := Option.isSome_iff_exists.mp hfind
      have hwr : winnerAt q rest (distSq q c.rgb) c = w := by
        rw [winnerAt, if_pos hlt, hw]
      rw [hwr, List.find?_cons_of_neg _ (by simp [h2]), hw]

/-- C1: for every parsed query q and nonempty palette, the scan of
nearestColor returns the minimum squared Euclidean distance m together
with the first palette entry achieving it (the strict comparison makes the
first minimizer win ties), and nearestColor formats exactly that entry. -/
theorem nearest_scan_selects_first_minimum (q : RGB) (c : ColorSpec)
    (rest : List ColorSpec) :
    ∃ m w, nearestScan q (c :: rest) = some (m, w) ∧
      (∀ x ∈ c :: rest, m ≤ distSq q x.rgb) ∧
      (c :: rest).find? (fun x => distSq q x.rgb == m) = some w ∧
      nearestColor (.rgbVal q) (c :: rest) = .ok (formatMatch w m) := by
  obtain ⟨m, w, hscan, hmin, hfind⟩ := nearestScan_char q c rest
  refine ⟨m, w, hscan, hmin, hfind, ?_⟩
  have hnc : nearestColor (.rgbVal q) (c :: rest) =
      match nearestScan q (c :: rest) with
      | none => .error .emptyPalette
      | some (m, v) => .ok (formatMatch v m) := rfl
  rw [hnc, hscan]

/-- C1 tie-break instance: two entries at identical coordinates, the query
at the same point; the first entry wins. -/
theorem nearest_scan_tie_first :
    nearestScan ⟨0, 0, 0⟩
      [⟨some ['A'], ['#', '0', '0', '0'], ⟨0, 0, 0⟩⟩,
       ⟨some ['B'], ['#', '0', '0', '0'], ⟨0, 0, 0⟩⟩] =
      some (0, ⟨some ['A'], ['#', '0', '0', '0'], ⟨0, 0, 0⟩⟩) := by
  decide

/-- Unfolding of nearestColor once the needle has parsed successfully. -/
theorem nearestColor_eq_of_parse (needle : ColorInput) (q : RGB)
    (colors : List ColorSpec) (hq : parseColor needle = .ok q) :
    nearestColor needle colors =
      match nearestScan q colors with
      | none => .error .emptyPalette
      | some (m, v) => .ok (formatMatch v m) := by
  unfold nearestColor
  rw [hq]

/-- C2: when the winning entry carries a (nonempty) name, nearestColor
returns the structured record with that name, the entry's source as value,
its rgb, and the minimal squared distance (whose square root the source
reports as the distance); with no name it returns the bare source. The
stored minimum is exactly the squared distance to the winning entry. The
maroon example: matching the string of hash f 0 0 against the named
palette of maroon and yellow yields name maroon, value the hash-8-0-0
string, rgb (136,0,0) and squared distance 14161, whose square root is the
claimed distance 119. -/
theorem match_result_structure (needle : ColorInput) (colors : List ColorSpec)
    (q : RGB) (m : Int) (v : ColorSpec)
    (hq : parseColor needle = .ok q) (hs : nearestScan q colors = some (m, v)) :
    (∀ n, v.name = some n → n ≠ [] →
      nearestColor needle colors = .ok (.named n v.source v.rgb m)) ∧
    (v.name = none → nearestColor needle colors = .ok (.bare v.source)) ∧
    m = distSq q v.rgb ∧
    normalizeObj
      [(['m', 'a', 'r', 'o', 'o', 'n'], .str ['#', '8', '0', '0']),
       (['y', 'e', 'l', 'l', 'o', 'w'], .str ['#', 'f', 'f', 'e'])] =
      .ok [⟨some ['m', 'a', 'r', 'o', 'o', 'n'], ['#', '8', '0', '0'], ⟨136, 0, 0⟩⟩,
           ⟨some ['y', 'e', 'l', 'l', 'o', 'w'], ['#', 'f', 'f', 'e'], ⟨255, 255, 238⟩⟩] ∧
    nearestColor (.str ['#', 'f', '0', '0'])
      [⟨some ['m', 'a', 'r', 'o', 'o', 'n'], ['#', '8', '0', '0'], ⟨136, 0, 0⟩⟩,
       ⟨some ['y', 'e', 'l', 'l', 'o', 'w'], ['#', 'f', 'f', 'e'], ⟨255, 255, 238⟩⟩] =
      .ok (.named ['m', 'a', 'r', 'o', 'o', 'n'] ['#', '8', '0', '0'] ⟨136, 0, 0⟩ 14161) ∧
    (14161 : Int) = 119 ^ 2 ∧ Real.sqrt (14161 : ℝ) = 119 := by
  have hmv : m = distSq q v.rgb := by
    cases colors with
    | nil => exact absurd hs (by simp [nearestScan])
    | cons c rest =>
      obtain ⟨m', w', hscan, hmin, hfind⟩ := nearestScan_char q c rest
      rw [hs] at hscan
      have hpair : m = m' ∧ v = w' := by
        injection hscan with h
        injection h with h1 h2
        exact ⟨h1, h2⟩
      obtain ⟨hm, hv⟩ := hpair
      subst hm
      subst hv
      have hp := List.find?_some hfind
      simp only [beq_iff_eq] at hp
      exact hp.symm
  refine ⟨?_, ?_, hmv, by rfl, by rfl, by norm_num, ?_⟩
  · intro n hn hne
    rw [nearestColor_eq_of_parse needle q colors hq, hs]
    have hfm : formatMatch v m = .named n v.source v.rgb m := by
      rw [formatMatch, hn]
      simp [List.isEmpty_iff, hne]
    show Except.ok (formatMatch v m) = _
    rw [hfm]
  · intro hn
    rw [nearestColor_eq_of_parse needle q colors hq, hs]
    show Except.ok (formatMatch v m) = _
    rw [show formatMatch v m = .bare v.source from by rw [formatMatch, hn]]
  · rw [show (14161 : ℝ) = 119 ^ 2 from by norm_num]
    exact Real.sqrt_sq (by norm_num)

/-- C2 witness: a concrete run through the named and bare branches. -/
theorem match_result_structure_witness :
    nearestColor (.rgbVal ⟨1, 2, 3⟩) [⟨none, ['#', '0', '0', '0'], ⟨0, 0, 0⟩⟩] =
      .ok (.bare ['#', '0', '0', '0']) :=
  (match_result_structure (.rgbVal ⟨1, 2, 3⟩)
    [⟨none, ['#', '0', '0', '0'], ⟨0, 0, 0⟩⟩] ⟨1, 2, 3⟩ 14
    ⟨none, ['#', '0', '0', '0'], ⟨0, 0, 0⟩⟩ rfl (by decide)).2.1 rfl

/-- C6: once the query has parsed, searching a zero-length palette fails
with the empty-palette error; no result value is produced. -/
theorem empty_palette_fails (needle : ColorInput) (q : RGB)
    (h : parseColor needle = .ok q) :
    nearestColor needle [] = .error .emptyPalette := by
  rw [nearestColor_eq_of_parse needle q [] h]
  rfl

/-- C6 witness: the empty palette fails on a concrete query. -/
theorem empty_palette_fails_witness :
    nearestColor (.rgbVal ⟨0, 0, 0⟩) [] = .error .emptyPalette :=
  empty_palette_fails (.rgbVal ⟨0, 0, 0⟩) ⟨0, 0, 0⟩ rfl

/-- The standard-color table never matches a string led by a hash. -/
theorem standardLookup_hash (t : List Char) : standardLookup ('#' :: t) = none := by
  simp [standardLookup]

/-- The standard-color table never matches three hex digits: the only
three-letter name is red, whose first letter is not a hex digit. -/
theorem standardLookup_hex3 (d1 d2 d3 : Char) (h1 : isHexDigit d1 = true) :
    standardLookup [d1, d2, d3] = none := by
  have hr : d1 ≠ 'r' := by
    intro he; rw [he] at h1; exact absurd h1 (by decide)
  simp [standardLookup, hr]

/-- The standard-color table never matches six hex digits: every
six-letter name starts with a letter that is not a hex digit. -/
theorem standardLookup_hex6 (d1 d2 d3 d4 d5 d6 : Char) (h1 : isHexDigit d1 = true) :
    standardLookup [d1, d2, d3, d4, d5, d6] = none := by
  have hm : d1 ≠ 'm' := by
    intro he; rw [he] at h1; exact absurd h1 (by decide)
  have hp : d1 ≠ 'p' := by
    intro he; rw [he] at h1; exact absurd h1 (by decide)
  have hs : d1 ≠ 's' := by
    intro he; rw [he] at h1; exact absurd h1 (by decide)
  have hy : d1 ≠ 'y' := by
    intro he; rw [he] at h1; exact absurd h1 (by decide)
  have ho : d1 ≠ 'o' := by
    intro he; rw [he] at h1; exact absurd h1 (by decide)
  simp [standardLookup, hm, hp, hs, hy, ho]

/-- C3: a three-hex-digit string parses, with or without the leading hash,
to the same channels as the six-digit string obtained by doubling each
digit, each channel being the doubled-digit byte. -/
theorem hex3_equals_expanded (d1 d2 d3 : Char)
    (h1 : isHexDigit d1 = true) (h2 : isHexDigit d2 = true)
    (h3 : isHexDigit d3 = true) :
    parseColorStr ['#', d1, d2, d3] =
      .ok ⟨hexByte d1 d1, hexByte d2 d2, hexByte d3 d3⟩ ∧
    parseColorStr ['#', d1, d1, d2, d2, d3, d3] =
      .ok ⟨hexByte d1 d1, hexByte d2 d2, hexByte d3 d3⟩ ∧
    parseColorStr [d1, d2, d3] = parseColorStr ['#', d1, d2, d3] ∧
    parseColorStr [d1, d1, d2, d2, d3, d3] =
      parseColorStr ['#', d1, d1, d2, d2, d3, d3] := by
  have hne : d1 ≠ '#' := by
    intro he; rw [he] at h1; exact absurd h1 (by decide)
  have hm3 : hexMatch ['#', d1, d2, d3] =
      some ⟨hexByte d1 d1, hexByte d2 d2, hexByte d3 d3⟩ := by
    simp [hexMatch, stripHash, h1, h2, h3]
  have hm3b : hexMatch [d1, d2, d3] =
      some ⟨hexByte d1 d1, hexByte d2 d2, hexByte d3 d3⟩ := by
    simp [hexMatch, stripHash, h1, h2, h3, hne]
  have hm6 : hexMatch ['#', d1, d1, d2, d2, d3, d3] =
      some ⟨hexByte d1 d1, hexByte d2 d2, hexByte d3 d3⟩ := by
    simp [hexMatch, stripHash, h1, h2, h3]
  have hm6b : hexMatch [d1, d1, d2, d2, d3, d3] =
      some ⟨hexByte d1 d1, hexByte d2 d2, hexByte d3 d3⟩ := by
    simp [hexMatch, stripHash, h1, h2, h3, hne]
  have e1 : parseColorStr ['#', d1, d2, d3] =
      .ok ⟨hexByte d1 d1, hexByte d2 d2, hexByte d3 d3⟩ := by
    rw [parseColorStr, standardLookup_hash, parseColorCore, hm3]
  have e2 : parseColorStr ['#', d1, d1, d2, d2, d3, d3] =
      .ok ⟨hexByte d1 d1, hexByte d2 d2, hexByte d3 d3⟩ := by
    rw [parseColorStr, standardLookup_hash, parseColorCore, hm6]
  have e3 : parseColorStr [d1, d2, d3] =
      .ok ⟨hexByte d1 d1, hexByte d2 d2, hexByte d3 d3⟩ := by
    rw [parseColorStr, standardLookup_hex3 d1 d2 d3 h1, parseColorCore, hm3b]
  have e4 : parseColorStr [d1, d1, d2, d2, d3, d3] =
      .ok ⟨hexByte d1 d1, hexByte d2 d2, hexByte d3 d3⟩ := by
    rw [parseColorStr, standardLookup_hex6 d1 d1 d2 d2 d3 d3 h1, parseColorCore, hm6b]
  exact ⟨e1, e2, by rw [e1, e3], by rw [e2, e4]⟩

/-- C3 witness: the a b c digits, in both hash forms. -/
theorem hex3_equals_expanded_witness :
    parseColorStr ['#', 'a', 'b', 'c'] =
      .ok ⟨hexByte 'a' 'a', hexByte 'b' 'b', hexByte 'c' 'c'⟩ :=
  (hex3_equals_expanded 'a' 'b' 'c' (by decide) (by decide) (by decide)).1

/-- C7 (amended): a string matching none of the grammars (not a standard
name, not a hex form, not an rgb() form, the whitespace of the rgb() form
being the full JavaScript backslash-s class) and not one of the inherited
Object.prototype property names that the in check of the source also
reaches, makes parseColor throw the invalid-color error carrying that
string (also in the full prototype-chain model); as a palette entry the
same error propagates uncaught through createColorSpec and palette
normalization (array or object form, after any well-parsed prefix); the
string f o o is such an input. On the excluded inherited names the
program does not raise this error (see invalid_format_counterexample). -/
theorem invalid_format_error (s : List Char)
    (h1 : standardLookup s = none) (h2 : hexMatch s = none)
    (h3 : rgbMatchStrings s = none) (h4 : s ∉ objectProtoProps) :
    parseColorStr s = .error (.invalidColorFormat s) ∧
    parseColor (.str s) = .error (.invalidColorFormat s) ∧
    parseColorStrFull s = .invalidColor s ∧
    (∀ name, createColorSpec (.str s) name = .error (.invalidColorFormat s)) ∧
    (∀ pre sc, normalizeList pre = .ok sc →
      normalizeList (pre ++ [.str s]) = .error (.invalidColorFormat s)) ∧
    (∀ pre sc n, normalizeObj pre = .ok sc →
      normalizeObj (pre ++ [(n, .str s)]) = .error (.invalidColorFormat s)) ∧
    parseColorStr ['f', 'o', 'o'] = .error (.invalidColorFormat ['f', 'o', 'o']) := by
  have hcore : parseColorStr s = .error (.invalidColorFormat s) := by
    unfold parseColorStr parseColorCore
    rw [h1, h2, h3]
  have hfull : parseColorStrFull s = .invalidColor s := by
    have hcoreEq : parseColorCore s = .error (.invalidColorFormat s) := by
      unfold parseColorCore
      rw [h2, h3]
    unfold parseColorStrFull
    rw [h1, if_neg h4, hcoreEq]
  have hspec : ∀ name, createColorSpec (.str s) name = .error (.invalidColorFormat s) := by
    intro name
    show (match parseColorStr s with
      | Except.ok rgb => Except.ok (⟨nameIfTruthy name, s, rgb⟩ : ColorSpec)
      | Except.error e => Except.error e) = _
    rw [hcore]
  have hlist : ∀ pre sc, normalizeList pre = .ok sc →
      normalizeList (pre ++ [.str s]) = .error (.invalidColorFormat s) := by
    intro pre
    induction pre with
    | nil =>
      intro sc h
      simp only [List.nil_append, normalizeList, hspec none]
    | cons c t ih =>
      intro sc h
      cases hc : createColorSpec c none with
      | error e =>
        simp only [normalizeList, hc] at h
        exact Except.noConfusion h
      | ok sc1 =>
        cases ht : normalizeList t with
        | error e =>
          simp only [normalizeList, hc, ht] at h
          exact Except.noConfusion h
        | ok scs =>
          simp only [List.cons_append, normalizeList, hc, List.append_eq, ih scs ht]
  have hobj : ∀ pre sc n, normalizeObj pre = .ok sc →
      normalizeObj (pre ++ [(n, .str s)]) = .error (.invalidColorFormat s) := by
    intro pre
    induction pre with
    | nil =>
      intro sc n h
      simp only [List.nil_append, normalizeObj, hspec (some n)]
    | cons c t ih =>
      intro sc n h
      obtain ⟨nm, cv⟩ := c
      cases hc : createColorSpec cv (some nm) with
      | error e =>
        simp only [normalizeObj, hc] at h
        exact Except.noConfusion h
      | ok sc1 =>
        cases ht : normalizeObj t with
        | error e =>
          simp only [normalizeObj, hc, ht] at h
          exact Except.noConfusion h
        | ok scs =>
          simp only [List.cons_append, normalizeObj, hc, List.append_eq, ih scs n ht]
  exact ⟨hcore, hcore, hfull, hspec, hlist, hobj, by rfl⟩

/-- C7 witness: the string f o o fails as a query and as a palette entry
after a well-parsed entry. -/
theorem invalid_format_error_witness :
    normalizeList [.str ['#', 'f', '0', '0'], .str ['f', 'o', 'o']] =
      .error (.invalidColorFormat ['f', 'o', 'o']) :=
  (invalid_format_error ['f', 'o', 'o'] rfl rfl rfl (by decide)).2.2.2.2.1
    [.str ['#', 'f', '0', '0']]
    [⟨none, ['#', 'f', '0', '0'], ⟨255, 0, 0⟩⟩] rfl

/-- Any error of the core grammar branches carries the parsed string. -/
theorem parseColorCore_error_shape (s : List Char) (e : ColorError)
    (h : parseColorCore s = .error e) : e = .invalidColorFormat s := by
  cases hh : hexMatch s with
  | some c =>
    rw [parseColorCore, hh] at h
    exact Except.noConfusion h
  | none =>
    cases hr : rgbMatchStrings s with
    | some t =>
      obtain ⟨c1, c2, c3⟩ := t
      rw [parseColorCore, hh, hr] at h
      exact Except.noConfusion h
    | none =>
      rw [parseColorCore, hh, hr] at h
      injection h with h2
      exact h2.symm

/-- Away from the inherited Object.prototype names, the full
prototype-chain model and parseColorStr agree on successes and on the
invalid-color error. -/
theorem parseColorStrFull_agrees (s : List Char) (h : s ∉ objectProtoProps) :
    (∀ c, parseColorStrFull s = .ok c ↔ parseColorStr s = .ok c) ∧
    (∀ t, parseColorStrFull s = .invalidColor t ↔
      parseColorStr s = .error (.invalidColorFormat t)) := by
  cases hsl : standardLookup s with
  | some v =>
    cases hc : parseColorCore v with
    | ok c0 => simp [parseColorStrFull, parseColorStr, hsl, hc]
    | error e =>
      have he2 := parseColorCore_error_shape v e hc
      subst he2
      simp [parseColorStrFull, parseColorStr, hsl, hc]
  | none =>
    cases hc : parseColorCore s with
    | ok c0 => simp [parseColorStrFull, parseColorStr, hsl, hc, h]
    | error e =>
      have he2 := parseColorCore_error_shape s e hc
      subst he2
      simp [parseColorStrFull, parseColorStr, hsl, hc, h]

/-- C7 counterexample: the inherited names proto (with surrounding double
underscores) and toString match none of the supported grammars, yet the
program does not raise the invalid-color error on them, because the in
check reaches the inherited Object.prototype properties: parseColor
passes the proto object through with no error on the first and throws a
TypeError on the second. -/
theorem invalid_format_counterexample :
    standardLookup ['_', '_', 'p', 'r', 'o', 't', 'o', '_', '_'] = none ∧
    hexMatch ['_', '_', 'p', 'r', 'o', 't', 'o', '_', '_'] = none ∧
    rgbMatchStrings ['_', '_', 'p', 'r', 'o', 't', 'o', '_', '_'] = none ∧
    parseColorStrFull ['_', '_', 'p', 'r', 'o', 't', 'o', '_', '_'] = .protoObject ∧
    standardLookup ['t', 'o', 'S', 't', 'r', 'i', 'n', 'g'] = none ∧
    hexMatch ['t', 'o', 'S', 't', 'r', 'i', 'n', 'g'] = none ∧
    rgbMatchStrings ['t', 'o', 'S', 't', 'r', 'i', 'n', 'g'] = none ∧
    parseColorStrFull ['t', 'o', 'S', 't', 'r', 'i', 'n', 'g'] = .typeError := by
  refine ⟨by rfl, by rfl, by rfl, by rfl, by rfl, by rfl, by rfl, by rfl⟩

set_option maxRecDepth 4096 in
/-- Every byte value renders to a valid two-hex-digit pair. -/
theorem hexPair_ok : ∀ n : Nat, n < 256 → hexPairOk n = true := by
  decide

/-- Destructured form of hexPairOk. -/
theorem hexPair_exists (n : Nat) (h : hexPairOk n = true) :
    ∃ a b, leadingZero (natToHex n) = [a, b] ∧ isHexDigit a = true ∧
      isHexDigit b = true ∧ 16 * hexVal a + hexVal b = n := by
  unfold hexPairOk at h
  cases hl : leadingZero (natToHex n) with
  | nil =>
    rw [hl] at h
    exact absurd h (by simp)
  | cons a rest =>
    cases rest with
    | nil =>
      rw [hl] at h
      exact absurd h (by simp)
    | cons b rest2 =>
      cases rest2 with
      | nil =>
        rw [hl] at h
        simp only [Bool.and_eq_true, beq_iff_eq] at h
        exact ⟨a, b, rfl, h.1.1, h.1.2, h.2⟩
      | cons x rest3 =>
        rw [hl] at h
        exact absurd h (by simp)

/-- C8: every RGB triple with integer components in the byte range renders
through rgbToHex to a six-digit lowercase hash string that parses back to
the same triple; the example triple (255,128,0) renders to the hash
f f 8 0 0 0 string. -/
theorem hex_roundtrip (c : RGB)
    (hr : 0 ≤ c.r ∧ c.r ≤ 255) (hg : 0 ≤ c.g ∧ c.g ≤ 255)
    (hb : 0 ≤ c.b ∧ c.b ≤ 255) :
    parseColorStr (rgbToHex c) = .ok c ∧
    rgbToHex ⟨255, 128, 0⟩ = ['#', 'f', 'f', '8', '0', '0', '0'] := by
  obtain ⟨r, g, b⟩ := c
  simp only at hr hg hb
  obtain ⟨a1, b1, hl1, ha1, hb1, hv1⟩ :=
    hexPair_exists r.toNat (hexPair_ok _ (by omega))
  obtain ⟨a2, b2, hl2, ha2, hb2, hv2⟩ :=
    hexPair_exists g.toNat (hexPair_ok _ (by omega))
  obtain ⟨a3, b3, hl3, ha3, hb3, hv3⟩ :=
    hexPair_exists b.toNat (hexPair_ok _ (by omega))
  have hrep : rgbToHex ⟨r, g, b⟩ = ['#', a1, b1, a2, b2, a3, b3] := by
    rw [rgbToHex]
    simp only
    rw [hl1, hl2, hl3]
    rfl
  have hhex : hexMatch ['#', a1, b1, a2, b2, a3, b3] =
      some ⟨hexByte a1 b1, hexByte a2 b2, hexByte a3 b3⟩ := by
    simp [hexMatch, stripHash, ha1, hb1, ha2, hb2, ha3, hb3]
  have hparse : parseColorStr ['#', a1, b1, a2, b2, a3, b3] =
      .ok ⟨hexByte a1 b1, hexByte a2 b2, hexByte a3 b3⟩ := by
    rw [parseColorStr, standardLookup_hash, parseColorCore, hhex]
  have e1 : hexByte a1 b1 = r := by
    rw [hexByte, hv1, Int.toNat_of_nonneg hr.1]
  have e2 : hexByte a2 b2 = g := by
    rw [hexByte, hv2, Int.toNat_of_nonneg hg.1]
  have e3 : hexByte a3 b3 = b := by
    rw [hexByte, hv3, Int.toNat_of_nonneg hb.1]
  refine ⟨?_, by rfl⟩
  rw [hrep, hparse, e1, e2, e3]

/-- C8 witness: the round trip at the example triple. -/
theorem hex_roundtrip_witness :
    parseColorStr (rgbToHex ⟨255, 128, 0⟩) = .ok ⟨255, 128, 0⟩ :=
  (hex_roundtrip ⟨255, 128, 0⟩ (by decide) (by decide) (by decide)).1

/-- C9: normalizing a list palette leaves an already-canonical
ColorSpec-shaped element unchanged (its name, source string and rgb are
preserved; the element satisfies the ColorSpecification invariant that its
rgb is what its source parses to, and carries no empty-string name), while
a raw string element becomes an unnamed specification whose source is the
input string verbatim, with its parsed rgb. Both facts lift to
normalizeList on a cons. -/
theorem normalize_passthrough (s : ColorSpec) (str : List Char) (rgb : RGB)
    (l : List RawColor)
    (hs : parseColorStr s.source = .ok s.rgb) (hn : s.name ≠ some [])
    (hstr : parseColorStr str = .ok rgb) :
    createColorSpec (.spec s) none = .ok s ∧
    createColorSpec (.str str) none = .ok ⟨none, str, rgb⟩ ∧
    (∀ sc, normalizeList l = .ok sc →
      normalizeList (.spec s :: l) = .ok (s :: sc) ∧
      normalizeList (.str str :: l) = .ok (⟨none, str, rgb⟩ :: sc)) := by
  obtain ⟨nm, src, rgbv⟩ := s
  simp only at hs hn
  have hnm : nameIfTruthy nm = nm := by
    cases nm with
    | none => rfl
    | some n =>
      have hne : ¬ n.isEmpty = true := by
        rw [List.isEmpty_iff]
        intro h
        exact hn (by rw [h])
      rw [nameIfTruthy, if_neg hne]
  have h1 : createColorSpec (.spec ⟨nm, src, rgbv⟩) none = .ok ⟨nm, src, rgbv⟩ := by
    show (match parseColorStr src with
      | Except.ok rgb2 => Except.ok (⟨nameIfTruthy nm, src, rgb2⟩ : ColorSpec)
      | Except.error e => Except.error e) = _
    rw [hs, hnm]
  have h2 : createColorSpec (.str str) none = .ok ⟨none, str, rgb⟩ := by
    show (match parseColorStr str with
      | Except.ok rgb2 => Except.ok (⟨nameIfTruthy none, str, rgb2⟩ : ColorSpec)
      | Except.error e => Except.error e) = _
    rw [hstr]
    rfl
  refine ⟨h1, h2, ?_⟩
  intro sc h
  constructor
  · simp only [normalizeList, h1, h]
  · simp only [normalizeList, h2, h]

/-- C9 witness: a canonical entry passes through a singleton normalization
unchanged, and a raw string keeps its verbatim source. -/
theorem normalize_passthrough_witness :
    normalizeList [.spec ⟨some ['x'], ['#', 'f', '0', '0'], ⟨255, 0, 0⟩⟩] =
      .ok [⟨some ['x'], ['#', 'f', '0', '0'], ⟨255, 0, 0⟩⟩] ∧
    normalizeList [.str ['f', 'f', 'e']] =
      .ok [⟨none, ['f', 'f', 'e'], ⟨255, 255, 238⟩⟩] := by
  have h := (normalize_passthrough ⟨some ['x'], ['#', 'f', '0', '0'], ⟨255, 0, 0⟩⟩
    ['f', 'f', 'e'] ⟨255, 255, 238⟩ [] (by rfl) (by simp) (by rfl)).2.2 [] rfl
  exact ⟨h.1, h.2⟩

/-- Re-normalizing a list of stable canonical entries is the identity. -/
theorem normalizeList_map_spec (l : List ColorSpec)
    (h : ∀ s ∈ l, createColorSpec (.spec s) none = .ok s) :
    normalizeList (l.map RawColor.spec) = .ok l := by
  induction l with
  | nil => rfl
  | cons c t ih =>
    simp only [List.map_cons, normalizeList, h c (List.mem_cons_self c t),
      ih (fun s hs => h s (List.mem_cons_of_mem c hs))]

/-- C5: composing with or concatenates palettes in order. From palette
input P (normalizing to entries ps) the bound matcher, extended with
collection Q (normalizing to qs), is the matcher bound to the ordered
concatenation ps followed by qs: calling it on any needle is exactly
nearestColor over that concatenated palette (so ties resolve to the
earliest entry of the concatenation, by the theorem on the scan), and the
result composes again with or in the same way. Entries are assumed stable
under re-normalization, which holds for every entry built from a string
or an in-range RGB value. -/
theorem or_concatenates (P Q : ColorsInput) (ps qs : List ColorSpec)
    (hP : mapColors P = .ok ps) (hQ : mapColors Q = .ok qs)
    (hstable : ∀ s ∈ ps ++ qs, createColorSpec (.spec s) none = .ok s) :
    ∃ mp m2, fromColors P = .ok mp ∧ mp.colors = ps ∧
      mp.or Q = .ok m2 ∧ m2.colors = ps ++ qs ∧
      (∀ needle, m2.call needle = nearestColor needle (ps ++ qs)) ∧
      (∀ R rs, mapColors R = .ok rs →
        (∀ s ∈ (ps ++ qs) ++ rs, createColorSpec (.spec s) none = .ok s) →
        ∃ m3, m2.or R = .ok m3 ∧ m3.colors = (ps ++ qs) ++ rs) := by
  have hmp : fromColors P = .ok ⟨ps⟩ := by
    unfold fromColors
    rw [hP]
  refine ⟨⟨ps⟩, ⟨ps ++ qs⟩, hmp, rfl, ?_, rfl, fun needle => rfl, ?_⟩
  · unfold BoundMatcher.or
    rw [hQ]
    show (match normalizeList ((ps ++ qs).map RawColor.spec) with
      | Except.ok cs => Except.ok (⟨cs⟩ : BoundMatcher)
      | Except.error e => Except.error e) = .ok ⟨ps ++ qs⟩
    rw [normalizeList_map_spec _ hstable]
  · intro R rs hR hstable2
    refine ⟨⟨(ps ++ qs) ++ rs⟩, ?_, rfl⟩
    unfold BoundMatcher.or
    rw [hR]
    show (match normalizeList (((ps ++ qs) ++ rs).map RawColor.spec) with
      | Except.ok cs => Except.ok (⟨cs⟩ : BoundMatcher)
      | Except.error e => Except.error e) = .ok ⟨(ps ++ qs) ++ rs⟩
    rw [normalizeList_map_spec _ hstable2]

/-- C5 witness: a concrete composition of two one-entry palettes. -/
theorem or_concatenates_witness :
    ∃ mp m2, fromColors (.arr [.str ['#', 'f', '0', '0']]) = .ok mp ∧
      mp.colors = [⟨none, ['#', 'f', '0', '0'], ⟨255, 0, 0⟩⟩] ∧
      mp.or (.arr [.str ['#', '0', '0', 'f']]) = .ok m2 ∧
      m2.colors = [⟨none, ['#', 'f', '0', '0'], ⟨255, 0, 0⟩⟩] ++
        [⟨none, ['#', '0', '0', 'f'], ⟨0, 0, 255⟩⟩] ∧
      (∀ needle, m2.call needle = nearestColor needle
        ([⟨none, ['#', 'f', '0', '0'], ⟨255, 0, 0⟩⟩] ++
          [⟨none, ['#', '0', '0', 'f'], ⟨0, 0, 255⟩⟩])) ∧
      (∀ R rs, mapColors R = .ok rs →
        (∀ s ∈ ([⟨none, ['#', 'f', '0', '0'], ⟨255, 0, 0⟩⟩] ++
            [⟨none, ['#', '0', '0', 'f'], ⟨0, 0, 255⟩⟩]) ++ rs,
          createColorSpec (.spec s) none = .ok s) →
        ∃ m3, m2.or R = .ok m3 ∧
          m3.colors = ([⟨none, ['#', 'f', '0', '0'], ⟨255, 0, 0⟩⟩] ++
            [⟨none, ['#', '0', '0', 'f'], ⟨0, 0, 255⟩⟩]) ++ rs) :=
  or_concatenates (.arr [.str ['#', 'f', '0', '0']])
    (.arr [.str ['#', '0', '0', 'f']])
    [⟨none, ['#', 'f', '0', '0'], ⟨255, 0, 0⟩⟩]
    [⟨none, ['#', '0', '0', 'f'], ⟨0, 0, 255⟩⟩]
    (by rfl) (by rfl)
    (by
      intro s hs
      simp only [List.cons_append, List.nil_append, List.mem_cons,
        List.not_mem_nil, or_false] at hs
      rcases hs with h | h <;> subst h <;> rfl)

/-- A whitespace character is not a digit. -/
theorem space_not_digit (x : Char) (h : isSpaceChar x = true) :
    isDigitChar x = false := by
  cases hdig : isDigitChar x
  · rfl
  · exfalso
    simp only [isDigitChar, Bool.and_eq_true, decide_eq_true_eq] at hdig
    simp only [isSpaceChar, Bool.or_eq_true, Bool.and_eq_true,
      decide_eq_true_eq] at h
    omega

/-- A digit character is not whitespace. -/
theorem digit_not_space (x : Char) (h : isDigitChar x = true) :
    isSpaceChar x = false := by
  cases hsp : isSpaceChar x
  · rfl
  · exfalso
    simp only [isDigitChar, Bool.and_eq_true, decide_eq_true_eq] at h
    simp only [isSpaceChar, Bool.or_eq_true, Bool.and_eq_true,
      decide_eq_true_eq] at hsp
    omega

/-- Dropping whitespace consumes a leading all-whitespace block. -/
theorem dropWhile_space_spaces (sp rest : List Char)
    (h : ∀ x ∈ sp, isSpaceChar x = true) :
    (sp ++ rest).dropWhile isSpaceChar = rest.dropWhile isSpaceChar :=
  List.dropWhile_append_of_pos h

/-- Dropping whitespace stops at a digit-led list. -/
theorem dropWhile_space_digit_led (ds rest : List Char) (hne : ds ≠ [])
    (hd : ∀ x ∈ ds, isDigitChar x = true) :
    (ds ++ rest).dropWhile isSpaceChar = ds ++ rest := by
  cases ds with
  | nil => exact absurd rfl hne
  | cons d t =>
    rw [List.cons_append]
    exact List.dropWhile_cons_of_neg
      (by simp [digit_not_space d (hd d (List.mem_cons_self d t))])

/-- Taking digits consumes a leading all-digit block. -/
theorem takeWhile_digits (ds rest : List Char)
    (hd : ∀ x ∈ ds, isDigitChar x = true)
    (hrest : rest.takeWhile isDigitChar = []) :
    (ds ++ rest).takeWhile isDigitChar = ds := by
  rw [List.takeWhile_append_of_pos hd, hrest, List.append_nil]

/-- A whitespace block followed by the closing parenthesis starts with no
digit. -/
theorem takeWhile_digit_space_paren (sp : List Char)
    (h : ∀ x ∈ sp, isSpaceChar x = true) :
    (sp ++ [')']).takeWhile isDigitChar = [] := by
  cases sp with
  | nil => exact List.takeWhile_cons_of_neg (by decide)
  | cons x t =>
    rw [List.cons_append]
    exact List.takeWhile_cons_of_neg
      (by simp [space_not_digit x (h x (List.mem_cons_self x t))])

/-- A whitespace block followed by the closing parenthesis does not start
with a percent sign. -/
theorem head_space_paren_ne_pct (sp : List Char)
    (h : ∀ x ∈ sp, isSpaceChar x = true) :
    (sp ++ [')']).head? ≠ some '%' := by
  cases sp with
  | nil =>
    intro he
    rw [List.nil_append, List.head?_cons] at he
    injection he with he2
    exact absurd he2 (by decide)
  | cons x t =>
    intro he
    rw [List.cons_append, List.head?_cons] at he
    injection he with he2
    have hx := h x (List.mem_cons_self x t)
    rw [he2] at hx
    exact absurd hx (by decide)

/-- The component match on digits followed by a non-digit, non-percent
remainder yields the digits and the untouched remainder. -/
theorem compMatch_plain (ds rest : List Char) (hne : ds ≠ [])
    (hlen : ds.length ≤ 3) (hd : ∀ x ∈ ds, isDigitChar x = true)
    (hhead : rest.takeWhile isDigitChar = []) (hpct : rest.head? ≠ some '%') :
    compMatch (ds ++ rest) = some (ds, rest) := by
  unfold compMatch
  rw [takeWhile_digits ds rest hd hhead,
    if_pos ⟨by simpa [Nat.succ_le_iff, List.length_pos] using hne, hlen⟩,
    List.drop_left]
  cases rest with
  | nil => rfl
  | cons x t =>
    have hx : x ≠ '%' := by
      intro he
      exact hpct (by rw [he]; rfl)
    split
    · next r heq =>
      rw [List.cons.injEq] at heq
      exact absurd heq.1 hx
    · rfl

/-- The component match on digits followed by a percent sign consumes the
percent sign into the matched substring. -/
theorem compMatch_pct (ds rest : List Char) (hne : ds ≠ [])
    (hlen : ds.length ≤ 3) (hd : ∀ x ∈ ds, isDigitChar x = true) :
    compMatch (ds ++ '%' :: rest) = some (ds ++ ['%'], rest) := by
  unfold compMatch
  rw [takeWhile_digits ds ('%' :: rest) hd (List.takeWhile_cons_of_neg (by decide)),
    if_pos ⟨by simpa [Nat.succ_le_iff, List.length_pos] using hne, hlen⟩,
    List.drop_left]
  rfl

/-- The component match on an optionally-percent-tagged component. -/
theorem compMatch_generic (ds : List Char) (p : Bool) (rest : List Char)
    (hne : ds ≠ []) (hlen : ds.length ≤ 3) (hd : ∀ x ∈ ds, isDigitChar x = true)
    (hhead : rest.takeWhile isDigitChar = []) (hpct : rest.head? ≠ some '%') :
    compMatch (ds ++ ((if p then ['%'] else []) ++ rest)) =
      some (ds ++ (if p then ['%'] else []), rest) := by
  cases p with
  | false => simpa using compMatch_plain ds rest hne hlen hd hhead hpct
  | true => simpa using compMatch_pct ds rest hne hlen hd

/-- The component value of an all-digit substring is its literal decimal
value, with no clamping. -/
theorem parseComponentValue_plain (ds : List Char) (hne : ds ≠ [])
    (hd : ∀ x ∈ ds, isDigitChar x = true) :
    parseComponentValue ds = ((digitsToNat ds : Nat) : Int) := by
  rw [parseComponentValue, if_neg]
  intro h
  have hm := List.mem_of_mem_getLast? h
  exact absurd (hd _ hm) (by decide)

/-- The component value of a percent-tagged substring is the rounded
scaling by 255 over 100, with no clamping. -/
theorem parseComponentValue_pct (ds : List Char)
    (hd : ∀ x ∈ ds, isDigitChar x = true) :
    parseComponentValue (ds ++ ['%']) =
      (((255 * digitsToNat ds + 50) / 100 : Nat) : Int) := by
  rw [parseComponentValue, if_pos (List.getLast?_concat ds),
    takeWhile_digits ds ['%'] hd (List.takeWhile_cons_of_neg (by decide))]

/-- The component value of an optionally-percent-tagged component. -/
theorem parseComponentValue_generic (ds : List Char) (p : Bool) (hne : ds ≠ [])
    (hd : ∀ x ∈ ds, isDigitChar x = true) :
    parseComponentValue (ds ++ (if p then ['%'] else [])) =
      (if p then (((255 * digitsToNat ds + 50) / 100 : Nat) : Int)
       else ((digitsToNat ds : Nat) : Int)) := by
  cases p with
  | false => simpa using parseComponentValue_plain ds hne hd
  | true => simpa using parseComponentValue_pct ds hd

/-- The standard-color table never matches a string led by the letters
r g b and an opening parenthesis. -/
theorem standardLookup_rgb (t : List Char) :
    standardLookup ('r' :: 'g' :: 'b' :: '(' :: t) = none := by
  simp [standardLookup]

/-- The hex grammar never matches a string led by the letter r. -/
theorem hexMatch_rgb (t : List Char) : hexMatch ('r' :: t) = none := by
  have h : isHexDigit 'r' = false := by decide
  simp [hexMatch, stripHash, h]

/-- Full behavior of the parser on a well-formed rgb() string: the three
components (one to three digits each, each optionally percent-tagged, with
optional whitespace after the opening parenthesis and the commas and
before the closing parenthesis) parse to their component values, percent
components by rounded scaling and plain components as literal uncapped
integers. -/
theorem rgbString_parses
    (a b c : List Char) (pa pb pc : Bool) (s0 s1 s2 s3 : List Char)
    (hane : a ≠ []) (halen : a.length ≤ 3) (had : ∀ x ∈ a, isDigitChar x = true)
    (hbne : b ≠ []) (hblen : b.length ≤ 3) (hbd : ∀ x ∈ b, isDigitChar x = true)
    (hcne : c ≠ []) (hclen : c.length ≤ 3) (hcd : ∀ x ∈ c, isDigitChar x = true)
    (hs0 : ∀ x ∈ s0, isSpaceChar x = true) (hs1 : ∀ x ∈ s1, isSpaceChar x = true)
    (hs2 : ∀ x ∈ s2, isSpaceChar x = true) (hs3 : ∀ x ∈ s3, isSpaceChar x = true) :
    parseColorStr ('r' :: 'g' :: 'b' :: '(' ::
      (s0 ++ (a ++ ((if pa then ['%'] else []) ++ (',' ::
        (s1 ++ (b ++ ((if pb then ['%'] else []) ++ (',' ::
          (s2 ++ (c ++ ((if pc then ['%'] else []) ++ (s3 ++ [')']))))))))))))) =
      .ok ⟨if pa then (((255 * digitsToNat a + 50) / 100 : Nat) : Int)
             else ((digitsToNat a : Nat) : Int),
           if pb then (((255 * digitsToNat b + 50) / 100 : Nat) : Int)
             else ((digitsToNat b : Nat) : Int),
           if pc then (((255 * digitsToNat c + 50) / 100 : Nat) : Int)
             else ((digitsToNat c : Nat) : Int)⟩ := by
  set X3 : List Char := s3 ++ [')'] with hX3
  set R2 : List Char := s2 ++ (c ++ ((if pc then ['%'] else []) ++ X3)) with hR2
  set R1 : List Char := s1 ++ (b ++ ((if pb then ['%'] else []) ++ (',' :: R2))) with hR1
  set R0 : List Char := s0 ++ (a ++ ((if pa then ['%'] else []) ++ (',' :: R1))) with hR0
  have hd0 : R0.dropWhile isSpaceChar =
      a ++ ((if pa then ['%'] else []) ++ (',' :: R1)) := by
    rw [hR0, dropWhile_space_spaces s0 _ hs0, dropWhile_space_digit_led a _ hane had]
  have hcomma : ∀ r : List Char, (',' :: r).takeWhile isDigitChar = [] :=
    fun r => List.takeWhile_cons_of_neg (by decide)
  have hcommap : ∀ r : List Char, (',' :: r).head? ≠ some '%' := by
    intro r he
    rw [List.head?_cons] at he
    injection he with he2
    exact absurd he2 (by decide)
  have hcm1 : compMatch (a ++ ((if pa then ['%'] else []) ++ (',' :: R1))) =
      some (a ++ (if pa then ['%'] else []), ',' :: R1) :=
    compMatch_generic a pa (',' :: R1) hane halen had (hcomma R1) (hcommap R1)
  have hd1 : R1.dropWhile isSpaceChar =
      b ++ ((if pb then ['%'] else []) ++ (',' :: R2)) := by
    rw [hR1, dropWhile_space_spaces s1 _ hs1, dropWhile_space_digit_led b _ hbne hbd]
  have hcm2 : compMatch (b ++ ((if pb then ['%'] else []) ++ (',' :: R2))) =
      some (b ++ (if pb then ['%'] else []), ',' :: R2) :=
    compMatch_generic b pb (',' :: R2) hbne hblen hbd (hcomma R2) (hcommap R2)
  have hd2 : R2.dropWhile isSpaceChar =
      c ++ ((if pc then ['%'] else []) ++ X3) := by
    rw [hR2, dropWhile_space_spaces s2 _ hs2, dropWhile_space_digit_led c _ hcne hcd]
  have hcm3 : compMatch (c ++ ((if pc then ['%'] else []) ++ X3)) =
      some (c ++ (if pc then ['%'] else []), X3) :=
    compMatch_generic c pc X3 hcne hclen hcd
      (by rw [hX3]; exact takeWhile_digit_space_paren s3 hs3)
      (by rw [hX3]; exact head_space_paren_ne_pct s3 hs3)
  have hd3 : X3.dropWhile isSpaceChar = [')'] := by
    rw [hX3, dropWhile_space_spaces s3 _ hs3]
    exact List.dropWhile_cons_of_neg (by decide)
  have hargs : rgbArgs R0 =
      some (a ++ (if pa then ['%'] else []), b ++ (if pb then ['%'] else []),
        c ++ (if pc then ['%'] else [])) := by
    unfold rgbArgs
    simp only [hd0, hcm1, hd1, hcm2, hd2, hcm3, hd3]
    rfl
  have hmatchS : rgbMatchStrings ('r' :: 'g' :: 'b' :: '(' :: R0) =
      some (a ++ (if pa then ['%'] else []), b ++ (if pb then ['%'] else []),
        c ++ (if pc then ['%'] else [])) := by
    show rgbArgs R0 = _
    exact hargs
  rw [parseColorStr, standardLookup_rgb, parseColorCore, hexMatch_rgb, hmatchS]
  show Except.ok (RGB.mk
      (parseComponentValue (a ++ (if pa then ['%'] else [])))
      (parseComponentValue (b ++ (if pb then ['%'] else [])))
      (parseComponentValue (c ++ (if pc then ['%'] else [])))) = _
  rw [parseComponentValue_generic a pa hane had,
    parseComponentValue_generic b pb hbne hbd,
    parseComponentValue_generic c pc hcne hcd]

/-- C4: in an rgb() string each component parses independently, a plain
digit component to its literal integer value with no clamping (so values
up to 999 pass through unchanged), a percent component to the rounded
scaling by 255 over 100; the fifty-percent triple parses to (128,128,128),
the 100-0-0 percent triple to (255,0,0), and the plain 300 component
passes through uncapped. -/
theorem rgb_component_values
    (a b c : List Char) (pa pb pc : Bool) (s0 s1 s2 s3 : List Char)
    (hane : a ≠ []) (halen : a.length ≤ 3) (had : ∀ x ∈ a, isDigitChar x = true)
    (hbne : b ≠ []) (hblen : b.length ≤ 3) (hbd : ∀ x ∈ b, isDigitChar x = true)
    (hcne : c ≠ []) (hclen : c.length ≤ 3) (hcd : ∀ x ∈ c, isDigitChar x = true)
    (hs0 : ∀ x ∈ s0, isSpaceChar x = true) (hs1 : ∀ x ∈ s1, isSpaceChar x = true)
    (hs2 : ∀ x ∈ s2, isSpaceChar x = true) (hs3 : ∀ x ∈ s3, isSpaceChar x = true) :
    (parseColorStr ('r' :: 'g' :: 'b' :: '(' ::
      (s0 ++ (a ++ ((if pa then ['%'] else []) ++ (',' ::
        (s1 ++ (b ++ ((if pb then ['%'] else []) ++ (',' ::
          (s2 ++ (c ++ ((if pc then ['%'] else []) ++ (s3 ++ [')']))))))))))))) =
      .ok ⟨if pa then (((255 * digitsToNat a + 50) / 100 : Nat) : Int)
             else ((digitsToNat a : Nat) : Int),
           if pb then (((255 * digitsToNat b + 50) / 100 : Nat) : Int)
             else ((digitsToNat b : Nat) : Int),
           if pc then (((255 * digitsToNat c + 50) / 100 : Nat) : Int)
             else ((digitsToNat c : Nat) : Int)⟩) ∧
    parseColorStr
      ['r', 'g', 'b', '(', '5', '0', '%', ',', '5', '0', '%', ',', '5', '0', '%', ')'] =
      .ok ⟨128, 128, 128⟩ ∧
    parseColorStr
      ['r', 'g', 'b', '(', '1', '0', '0', '%', ',', '0', '%', ',', '0', '%', ')'] =
      .ok ⟨255, 0, 0⟩ ∧
    parseColorStr ['r', 'g', 'b', '(', '3', '0', '0', ',', '0', ',', '0', ')'] =
      .ok ⟨300, 0, 0⟩ :=
  ⟨rgbString_parses a b c pa pb pc s0 s1 s2 s3 hane halen had hbne hblen hbd
      hcne hclen hcd hs0 hs1 hs2 hs3,
    by rfl, by rfl, by rfl⟩

/-- C4 witness: the plain uncapped 300 component. -/
theorem rgb_component_values_witness :
    parseColorStr ['r', 'g', 'b', '(', '3', '0', '0', ',', '0', ',', '0', ')'] =
      .ok ⟨300, 0, 0⟩ :=
  (rgb_component_values ['3', '0', '0'] ['0'] ['0'] false false false [] [] [] []
    (by decide) (by decide) (by decide) (by decide) (by decide) (by decide)
    (by decide) (by decide) (by decide) (by decide) (by decide) (by decide)
    (by decide)).2.2.2

/-- C10: a percent component is scaled by the rounding formula with no
clamping even above one hundred percent: its parsed value then exceeds
255, and in particular the 999 percent component parses to channel value
2547 inside a full rgb() string. -/
theorem rgb_percent_uncapped (ds : List Char) (hne : ds ≠ [])
    (hlen : ds.length ≤ 3) (hd : ∀ x ∈ ds, isDigitChar x = true)
    (hv : 100 < digitsToNat ds) :
    parseComponentValue (ds ++ ['%']) =
      (((255 * digitsToNat ds + 50) / 100 : Nat) : Int) ∧
    (255 : Int) < (((255 * digitsToNat ds + 50) / 100 : Nat) : Int) ∧
    parseColorStr ('r' :: 'g' :: 'b' :: '(' ::
      (ds ++ (['%'] ++ (',' :: (['0'] ++ (['%'] ++ (',' ::
        (['0'] ++ (['%'] ++ [')'])))))))))  =
      .ok ⟨(((255 * digitsToNat ds + 50) / 100 : Nat) : Int), 0, 0⟩ ∧
    parseColorStr
      ['r', 'g', 'b', '(', '9', '9', '9', '%', ',', ' ', '0', '%', ',', ' ', '0', '%', ')'] =
      .ok ⟨2547, 0, 0⟩ := by
  refine ⟨parseComponentValue_pct ds hd, ?_, ?_, by rfl⟩
  · have h258 : (258 : Nat) ≤ (255 * digitsToNat ds + 50) / 100 := by
      rw [Nat.le_div_iff_mul_le (by norm_num)]
      omega
    exact_mod_cast lt_of_lt_of_le (show (255 : Nat) < 258 by norm_num) h258
  · have h := rgbString_parses ds ['0'] ['0'] true true true [] [] [] []
      hne hlen hd (by decide) (by decide) (by decide) (by decide) (by decide)
      (by decide) (by decide) (by decide) (by decide) (by decide)
    simpa [digitsToNat] using h

/-- C10 witness: the 999 percent component at work. -/
theorem rgb_percent_uncapped_witness :
    parseColorStr
      ['r', 'g', 'b', '(', '9', '9', '9', '%', ',', ' ', '0', '%', ',', ' ', '0', '%', ')'] =
      .ok ⟨2547, 0, 0⟩ :=
  (rgb_percent_uncapped ['9', '9', '9'] (by decide) (by decide) (by decide)
    (by decide)).2.2.2
